import Mathlib

/-
Verification of the fr_stock_backend content-ingestion pipeline.

Shallow embedding of the JavaScript sources:
  * src/config/redditScraper.js   — scrape-interval configuration
  * src/services/redditService.js — freshness scheduler, proxy-error
    classification, comment-tree extraction, persist filter, comment upsert
  * src/utils/proxyManager.js     — proxy pool (round-robin + health/cooldown)
  * src/services/sentimentService.js — sentiment-scoring batch loop

Times are Unix epoch milliseconds modelled as Int.  JavaScript null / absent
fields are modelled with Option.  The external scoring call (OpenAI) is
modelled as an arbitrary oracle function supplied as a parameter.
-/

/-! ### Configuration (src/config/redditScraper.js) -/

def MS_PER_SECOND : Int := 1000

def MS_PER_MINUTE : Int := 60 * MS_PER_SECOND

def MS_PER_HOUR : Int := 60 * MS_PER_MINUTE

def MS_PER_DAY : Int := 24 * MS_PER_HOUR

structure ScrapeRule where
  maxAgeMs : Int
  intervalMs : Int
  deriving Repr, DecidableEq

/-- The ordered age-bucket table `SCRAPE_INTERVALS` from redditScraper.js. -/
def SCRAPE_INTERVALS : List ScrapeRule :=
  [ { maxAgeMs := MS_PER_DAY,     intervalMs := 10 * MS_PER_MINUTE },
    { maxAgeMs := 3 * MS_PER_DAY, intervalMs := MS_PER_HOUR },
    { maxAgeMs := 7 * MS_PER_DAY, intervalMs := MS_PER_DAY } ]

def MAX_POST_AGE_MS : Int := 7 * MS_PER_DAY

/-! ### Freshness scheduler (shouldScrapePost, src/services/redditService.js) -/

/-- A stored reddit post as far as the scheduler reads it: `postTime` and the
nullable `scrapedAt` timestamp. -/
structure RedditPost where
  postTime : Int
  scrapedAt : Option Int
  deriving Repr, DecidableEq

/-- Translation of `shouldScrapePost`.  `now` stands for the `Date.now()`
call made at the top of the function. -/
def shouldScrapePost (now : Int) (post : RedditPost) : Bool :=
  let postAge := now - post.postTime
  if MAX_POST_AGE_MS ≤ postAge then
    false
  else
    match post.scrapedAt with
    | none => true
    | some lastScraped =>
      match SCRAPE_INTERVALS.find? (fun r => postAge < r.maxAgeMs) with
      | none => false
      | some rule => rule.intervalMs ≤ now - lastScraped

/-! ### Proxy pool (src/utils/proxyManager.js) -/

def COOLDOWN_MS : Int := 5 * 60 * 1000

/-- One entry of the in-memory `proxyHealth` map:
`{ healthy: boolean, lastFailure: timestamp|null }`. -/
structure ProxyHealth where
  healthy : Bool
  lastFailure : Option Int
  deriving Repr, DecidableEq

/-- The health map `proxyHealth`; `none` models a proxy URL with no entry. -/
def HealthMap : Type := String → Option ProxyHealth

/-- Translation of `markProxyFailed`: point-update of the health map. -/
def markProxyFailed (health : HealthMap) (now : Int) (proxyUrl : String) : HealthMap :=
  fun u => if u = proxyUrl then some { healthy := false, lastFailure := some now } else health u

/-- Translation of `isProxyAvailable`.  JavaScript computes
`Date.now() - health.lastFailure > COOLDOWN_MS`; a null `lastFailure`
coerces to 0 there, modelled by `getD 0`. -/
def isProxyAvailable (health : HealthMap) (now : Int) (proxyUrl : String) : Bool :=
  match health proxyUrl with
  | none => true
  | some h =>
    if h.healthy then true
    else COOLDOWN_MS < now - h.lastFailure.getD 0

/-- The proxy-pool module state: `proxyList`, `currentIndex`, `proxyHealth`. -/
structure ProxyPoolState where
  proxyList : List String
  currentIndex : Nat
  health : HealthMap

/-- The scan loop inside `getNextProxyAgent`: starting at `idx`, try `fuel`
entries, advancing the cursor each step; returns the first available proxy
(if any) together with the cursor value after the loop exits. -/
def getNextLoop (list : List String) (health : HealthMap) (now : Int) :
    Nat → Nat → Option String × Nat
  | idx, 0 => (none, idx)
  | idx, fuel + 1 =>
    let proxy := list.getD idx ""
    let idx' := (idx + 1) % list.length
    if isProxyAvailable health now proxy then (some proxy, idx')
    else getNextLoop list health now idx' fuel

/-- Translation of `getNextProxyAgent`.  Returns the chosen proxy URL and the
updated pool state, or `none` when no proxies are configured.  The fallback
branch of the source returns `proxyList[0]`. -/
def getNextProxyAgent (s : ProxyPoolState) (now : Int) : Option (String × ProxyPoolState) :=
  if s.proxyList.isEmpty then none
  else
    match getNextLoop s.proxyList s.health now s.currentIndex s.proxyList.length with
    | (some proxy, idx') => some (proxy, { s with currentIndex := idx' })
    | (none, idx') => some (s.proxyList.getD 0 "", { s with currentIndex := idx' })

/-! ### Proxy-error classification (isProxyError, src/services/redditService.js) -/

/-- The part of an axios error object that `isProxyError` reads:
`error.code` (absent on plain HTTP errors) and `error.response?.status`. -/
structure AxiosError where
  code : Option String
  responseStatus : Option Nat
  deriving Repr, DecidableEq

/-- The `proxyErrorCodes` array from the source. -/
def proxyErrorCodes : List String :=
  [ "ECONNREFUSED", "ECONNRESET", "ETIMEDOUT", "ENOTFOUND", "ENETUNREACH",
    "EHOSTUNREACH", "EPROTO", "EPIPE", "ERR_SOCKET_CLOSED" ]

/-- Translation of `isProxyError`.  The JS guard `error.code && includes(...)`
skips the lookup on a falsy code; the empty string is not in the list, so
matching on the Option is equivalent. -/
def isProxyError (e : AxiosError) : Bool :=
  (match e.code with
   | some c => proxyErrorCodes.contains c
   | none => false)
  || e.responseStatus == some 407

/-- The catch-block decision in `scrapeSinglePost`:
`if (proxyUrl && isProxyError(error)) markProxyFailed(proxyUrl)`. -/
def marksProxyFailed (proxyUrl : Option String) (e : AxiosError) : Bool :=
  proxyUrl.isSome && isProxyError e

/-! ### Comment-tree extraction (extractAllComments, src/services/redditService.js) -/

/-- A node of the raw reply forest as the extractor reads it: `kind`, and the
`data` fields `name`, `author`, `body`, `score`, `created_utc`, plus the
nested `replies.data.children` list.  A missing or empty replies container in
the JSON is modelled as the empty child list (the source's guard skips the
recursive call then, which extracts nothing, exactly like recursing on []). -/
inductive RedditNode where
  | mk (kind : String) (name : String) (author : String) (body : String)
       (score : Int) (created_utc : Option Int) (replies : List RedditNode)

/-- One flattened comment record produced by the extractor. -/
structure RedditCommentRec where
  comment_id : String
  post_id : String
  parent_id : String
  author : String
  body : String
  score : Int
  created_utc : Option Int
  depth : Nat
  deriving Repr, DecidableEq

/-- Translation of the recursive `extractAllComments(children, postId,
parentId = null, depth = 0)`.  For each `t1` child it pushes the record, then
the flattened replies, then continues with the remaining siblings; JS
`parentId || postId` is `Option.getD` here (parent ids are never empty
strings). -/
def extractAllComments : List RedditNode → String → Option String → Nat → List RedditCommentRec
  | [], _, _, _ => []
  | .mk kind name author body score cu replies :: rest, postId, parentId, depth =>
    if kind = "t1" then
      { comment_id := name, post_id := postId, parent_id := parentId.getD postId,
        author := author, body := body, score := score, created_utc := cu, depth := depth }
      :: (extractAllComments replies postId (some name) (depth + 1)
          ++ extractAllComments rest postId parentId depth)
    else
      extractAllComments rest postId parentId depth

/-- The call site `extractAllComments(commentsData, postData.post_id)` with
the default arguments. -/
def extractComments (forest : List RedditNode) (postId : String) : List RedditCommentRec :=
  extractAllComments forest postId none 0

/-- Number of nodes in a reply forest (every node, all kinds). -/
def forestSize : List RedditNode → Nat
  | [] => 0
  | .mk _ _ _ _ _ _ replies :: rest => 1 + forestSize replies + forestSize rest

/-- True when every node in the forest (recursively) has kind "t1", i.e. the
forest consists of comment nodes only. -/
def allT1 : List RedditNode → Bool
  | [] => true
  | .mk kind _ _ _ _ _ replies :: rest => kind == "t1" && allT1 replies && allT1 rest

/-- Specification-side DFS preorder listing of all node names, in the order
children are presented by the source. -/
def preorderIds : List RedditNode → List String
  | [] => []
  | .mk _ name _ _ _ _ replies :: rest => name :: (preorderIds replies ++ preorderIds rest)

/-- Specification-side nesting level of every node, in DFS preorder. -/
def preorderDepths : List RedditNode → Nat → List Nat
  | [], _ => []
  | .mk _ _ _ _ _ _ replies :: rest, d =>
    d :: (preorderDepths replies (d + 1) ++ preorderDepths rest d)

/-- Specification-side immediate parent of every node (the enclosing node's
name, or the given root id at the top level), in DFS preorder. -/
def preorderParents : List RedditNode → String → List String
  | [], _ => []
  | .mk _ name _ _ _ _ replies :: rest, par =>
    par :: (preorderParents replies name ++ preorderParents rest par)

/-! ### Persist filter (scrapeSinglePost comment loop, src/services/redditService.js) -/

/-- The persist-filter condition from the comment-saving loop:
`(commentScore >= 2 || commentScore <= -2) && commentBody.length >= 10`. -/
def keepComment (score : Int) (body : String) : Bool :=
  (2 ≤ score || score ≤ -2) && 10 ≤ body.length

/-! ### Comment rows and the comment upsert (src/services/redditService.js) -/

/-- A row of the `reddit_comments` table.  `sentiment`, `flagForDelete` and
`sentToAIAt` are the scoring fields (nullable sentiment and scored-at
timestamp, boolean delete flag defaulting to false). -/
structure CommentRow where
  redditId : String
  redditPostId : Nat
  body : String
  upvotes : Int
  createdAtUtc : Int
  scrapedAt : Int
  sentiment : Option ℚ
  flagForDelete : Bool
  sentToAIAt : Option Int
  deriving Repr, DecidableEq

/-- The values passed to `prisma.redditComment.upsert` for one extracted
comment in `scrapeSinglePost`. -/
structure CommentUpsertData where
  redditId : String
  redditPostId : Nat
  body : String
  upvotes : Int
  createdAtUtc : Int
  deriving Repr, DecidableEq

/-- Semantics of the `prisma.redditComment.upsert` call in `scrapeSinglePost`:
when a row with the reddit id exists the `update` clause sets only `body`,
`upvotes`, `createdAtUtc` and `scrapedAt`; otherwise the `create` clause
inserts a new row whose scoring fields take their schema defaults. -/
def applyCommentUpsert (existing : Option CommentRow) (d : CommentUpsertData) (now : Int) :
    CommentRow :=
  match existing with
  | some row =>
    { row with body := d.body, upvotes := d.upvotes,
               createdAtUtc := d.createdAtUtc, scrapedAt := now }
  | none =>
    { redditId := d.redditId, redditPostId := d.redditPostId, body := d.body,
      upvotes := d.upvotes, createdAtUtc := d.createdAtUtc, scrapedAt := now,
      sentiment := none, flagForDelete := false, sentToAIAt := none }

/-! ### Sentiment scoring batch (calcSentiment, src/services/sentimentService.js) -/

/-- The parsed JSON object returned by a completed `analyzeSentiment` call.
Either field may be absent from the object the model returned; the update
clause then falls back through `?? null` / `?? false`. -/
structure AnalyzedOutput where
  sentiment : Option ℚ
  flagForDelete : Option Bool
  deriving Repr, DecidableEq

/-- Outcome of one scoring call, as `calcSentiment` observes it:
`Except.error` models a thrown error (network failure, quota error, or
`JSON.parse` throwing on unparseable output, re-thrown by
`analyzeSentiment`); `Except.ok none` models a parse result that is falsy
(JSON `null` and similar), which the `if (analyzedComment)` guard skips;
`Except.ok (some out)` models a truthy parsed object. -/
def ScoringOracle : Type := Nat → Except String (Option AnalyzedOutput)

/-- The database of comment rows, keyed by the internal comment id. -/
def CommentDb : Type := Nat → CommentRow

/-- One iteration of the `calcSentiment` loop for the comment with id `cid`:
on a thrown error the catch block continues with the next comment; on a
falsy result nothing is written; on a truthy parsed object the row is
updated immediately with `sentiment ?? null`, `flagForDelete ?? false` and
`sentToAIAt = now`. -/
def scoreStep (oracle : ScoringOracle) (now : Int) (db : CommentDb) (cid : Nat) : CommentDb :=
  match oracle cid with
  | .error _ => db
  | .ok none => db
  | .ok (some out) =>
    fun k =>
      if k = cid then
        { db cid with sentiment := out.sentiment,
                      flagForDelete := out.flagForDelete.getD false,
                      sentToAIAt := some now }
      else db k

/-- The `calcSentiment` loop over a batch of comment ids, one scoring call
and (on success) one immediate write per comment. -/
def calcSentimentRun (oracle : ScoringOracle) (now : Int) (db : CommentDb)
    (ids : List Nat) : CommentDb :=
  ids.foldl (scoreStep oracle now) db

/-! ## Theorems -/

/-- C5: the persist filter keeps a comment exactly when `abs(voteScore) >= 2`
and the body has length at least 10; in particular score 1 / length 50 is
dropped, score 2 / length 9 is dropped, and score -2 / length 10 is kept. -/
theorem keepComment_iff_abs :
    (∀ (score : Int) (body : String),
        keepComment score body = true ↔ 2 ≤ score.natAbs ∧ 10 ≤ body.length) ∧
    keepComment 1 (String.mk (List.replicate 50 'a')) = false ∧
    keepComment 2 (String.mk (List.replicate 9 'a')) = false ∧
    keepComment (-2) (String.mk (List.replicate 10 'a')) = true := by
  refine ⟨fun score body => ?_, by decide, by decide, by decide⟩
  simp only [keepComment, Bool.and_eq_true, Bool.or_eq_true, decide_eq_true_eq]
  omega

/-- C7: a fetch error marks the proxy failed exactly when it is one of the
nine connection-level error codes or an HTTP 407 proxy-authentication
failure; an upstream HTTP 403 never counts as a proxy error. -/
theorem isProxyError_characterisation :
    (∀ e : AxiosError,
        isProxyError e = true ↔
          ((∃ c, e.code = some c ∧ c ∈ proxyErrorCodes) ∨ e.responseStatus = some 407)) ∧
    isProxyError ⟨none, some 403⟩ = false ∧
    (∀ (u : String) (e : AxiosError), marksProxyFailed (some u) e = isProxyError e) := by
  refine ⟨fun e => ?_, by decide, fun u e => ?_⟩
  · cases hc : e.code with
    | none => simp [isProxyError, hc]
    | some c => simp [isProxyError, hc]
  · simp [marksProxyFailed]

/-- C9: re-scraping an existing comment updates only the body, vote score,
creation time and scrape time; sentiment, delete flag and scored-at are
untouched, so an already-scored comment stays scored (is never re-queued). -/
theorem upsert_preserves_scoring (row : CommentRow) (d : CommentUpsertData) (now : Int) :
    (applyCommentUpsert (some row) d now).sentiment = row.sentiment ∧
    (applyCommentUpsert (some row) d now).flagForDelete = row.flagForDelete ∧
    (applyCommentUpsert (some row) d now).sentToAIAt = row.sentToAIAt ∧
    (applyCommentUpsert (some row) d now).body = d.body ∧
    (applyCommentUpsert (some row) d now).upvotes = d.upvotes ∧
    (applyCommentUpsert (some row) d now).createdAtUtc = d.createdAtUtc ∧
    (applyCommentUpsert (some row) d now).scrapedAt = now ∧
    (row.sentToAIAt ≠ none → (applyCommentUpsert (some row) d now).sentToAIAt ≠ none) := by
  simp [applyCommentUpsert]

/-- Closed instance of the C9 theorem: a scored row keeps its scoring fields
through a re-scrape upsert that changes the body. -/
theorem upsert_preserves_scoring_witness :
    (applyCommentUpsert
        (some { redditId := "t1_x", redditPostId := 4, body := "old body!!",
                upvotes := 3, createdAtUtc := 10, scrapedAt := 20,
                sentiment := some (1 / 2), flagForDelete := false,
                sentToAIAt := some 77 })
        { redditId := "t1_x", redditPostId := 4, body := "new body!!",
          upvotes := 5, createdAtUtc := 10 } 99).sentiment = some (1 / 2) ∧
    (applyCommentUpsert
        (some { redditId := "t1_x", redditPostId := 4, body := "old body!!",
                upvotes := 3, createdAtUtc := 10, scrapedAt := 20,
                sentiment := some (1 / 2), flagForDelete := false,
                sentToAIAt := some 77 })
        { redditId := "t1_x", redditPostId := 4, body := "new body!!",
          upvotes := 5, createdAtUtc := 10 } 99).sentToAIAt = some 77 := by
  have h := upsert_preserves_scoring
    { redditId := "t1_x", redditPostId := 4, body := "old body!!",
      upvotes := 3, createdAtUtc := 10, scrapedAt := 20,
      sentiment := some (1 / 2), flagForDelete := false, sentToAIAt := some 77 }
    { redditId := "t1_x", redditPostId := 4, body := "new body!!",
      upvotes := 5, createdAtUtc := 10 } 99
  exact ⟨h.1, h.2.2.1⟩

/-- C10: a node whose kind is not "t1" contributes nothing: the extractor
emits no record for it and never visits its reply subtree. -/
theorem extract_skips_non_t1 (kind name author body : String) (score : Int)
    (cu : Option Int) (replies rest : List RedditNode) (postId : String)
    (parentId : Option String) (depth : Nat) (h : kind ≠ "t1") :
    extractAllComments (.mk kind name author body score cu replies :: rest)
        postId parentId depth
      = extractAllComments rest postId parentId depth := by
  simp [extractAllComments, h]

/-- Closed instance of the C10 theorem: a "more" placeholder node with a
comment child in its subtree produces no records at all. -/
theorem extract_skips_non_t1_witness :
    extractAllComments
        [.mk "more" "t1_x" "" "" 0 none [.mk "t1" "t1_child" "u" "hello world" 3 none []]]
        "t3_p" none 0 = [] := by
  rw [extract_skips_non_t1 "more" "t1_x" "" "" 0 none
        [.mk "t1" "t1_child" "u" "hello world" 3 none []] [] "t3_p" none 0 (by decide)]
  simp [extractAllComments]

/-- C2 counterexample: a post created at time 0 and last scraped at
85680000 ms is due at clock time 86340000 (age just under 1 day, 11 minutes
since last scrape, 10-minute rule), but two minutes later, at 86460000, the
post has crossed into the 1–3-day bucket whose interval is 1 hour, and
`shouldScrapePost` returns false again — so the function is not monotonic
in clock time. -/
theorem shouldScrape_not_monotone :
    shouldScrapePost 86340000 { postTime := 0, scrapedAt := some 85680000 } = true ∧
    (86340000 : Int) < 86460000 ∧
    shouldScrapePost 86460000 { postTime := 0, scrapedAt := some 85680000 } = false := by
  refine ⟨by decide, by decide, by decide⟩

/-- C2 (amended): `shouldScrapePost` is monotonic in clock time as long as
the post's age at the later time is still below the maximum age and still
selects the same interval rule: if the post is due at time t and not
re-scraped, it stays due at any later t' within the same age bucket. -/
theorem shouldScrape_monotone (t t' : Int) (p : RedditPost)
    (h1 : shouldScrapePost t p = true) (h2 : t ≤ t')
    (hage : t' - p.postTime < MAX_POST_AGE_MS)
    (hrule : SCRAPE_INTERVALS.find? (fun r => t' - p.postTime < r.maxAgeMs)
           = SCRAPE_INTERVALS.find? (fun r => t - p.postTime < r.maxAgeMs)) :
    shouldScrapePost t' p = true := by
  unfold shouldScrapePost at h1 ⊢
  simp only [] at h1 ⊢
  rw [if_neg (show ¬ MAX_POST_AGE_MS ≤ t' - p.postTime by omega)]
  split at h1
  · simp at h1
  · split at h1
    · rfl
    · next lastScraped heq =>
      rw [hrule]
      split at h1
      · simp at h1
      · next rule heq2 =>
        simp only [decide_eq_true_eq] at h1 ⊢
        omega

/-- Closed instance of the amended C2 theorem: a never-yet-rescraped-due post
(10 minutes old, scraped at creation) stays due 100 seconds later within the
same bucket. -/
theorem shouldScrape_monotone_witness :
    shouldScrapePost 600000 { postTime := 0, scrapedAt := some 0 } = true ∧
    shouldScrapePost 700000 { postTime := 0, scrapedAt := some 0 } = true :=
  ⟨by decide,
   shouldScrape_monotone 600000 700000 { postTime := 0, scrapedAt := some 0 }
     (by decide) (by decide) (by decide) (by decide)⟩

/-- If the scan loop of `getNextProxyAgent` returns a proxy, that proxy
passed the availability check. -/
theorem getNextLoop_fst_some (list : List String) (health : HealthMap) (now : Int)
    (fuel : Nat) :
    ∀ idx p, (getNextLoop list health now idx fuel).fst = some p →
      isProxyAvailable health now p = true := by
  induction fuel with
  | zero => intro idx p h; simp [getNextLoop] at h
  | succ n ih =>
    intro idx p h
    simp only [getNextLoop] at h
    split at h
    · next hav =>
      obtain rfl : list.getD idx "" = p := by simpa using h
      exact hav
    · exact ih _ _ h

/-- If the scan loop exhausts its fuel without finding an available proxy,
every slot it visited (fuel many, starting at `idx`) was unavailable. -/
theorem getNextLoop_fst_none_cover (list : List String) (health : HealthMap) (now : Int)
    (fuel : Nat) :
    ∀ idx, idx < list.length →
      (getNextLoop list health now idx fuel).fst = none →
      ∀ j, j < fuel →
        isProxyAvailable health now (list.getD ((idx + j) % list.length) "") = false := by
  induction fuel with
  | zero => intro idx _ _ j hj; omega
  | succ n ih =>
    intro idx hidx h j hj
    simp only [getNextLoop] at h
    split at h
    · simp at h
    · next hav =>
      cases j with
      | zero =>
        rw [Nat.add_zero, Nat.mod_eq_of_lt hidx]
        simpa using hav
      | succ k =>
        have hlen : 0 < list.length := by omega
        have h2 := ih ((idx + 1) % list.length) (Nat.mod_lt _ hlen) h k (by omega)
        have e : (idx + (k + 1)) % list.length
            = ((idx + 1) % list.length + k) % list.length := by
          rw [Nat.mod_add_mod]
          congr 1
          omega
        rw [e]
        exact h2

/-- If every proxy in the list is unavailable, the scan loop finds none. -/
theorem getNextLoop_fst_none_of_all (list : List String) (health : HealthMap) (now : Int)
    (fuel : Nat) :
    ∀ idx, idx < list.length →
      (∀ p ∈ list, isProxyAvailable health now p = false) →
      (getNextLoop list health now idx fuel).fst = none := by
  induction fuel with
  | zero => intro idx _ _; simp [getNextLoop]
  | succ n ih =>
    intro idx hidx hall
    have hmem : list.getD idx "" ∈ list := by
      rw [List.getD_eq_getElem list "" hidx]
      exact List.getElem_mem hidx
    simp only [getNextLoop]
    rw [hall _ hmem]
    simp only [Bool.false_eq_true, if_false]
    exact ih _ (Nat.mod_lt _ (by omega)) hall

/-- C3 counterexample: with proxy list ["pa", "pb"], cursor at 1 and both
proxies failed one millisecond ago (no proxy available), `getNextProxyAgent`
returns "pa" — the first entry of the list — not "pb", the entry at the
cursor position. -/
theorem getNext_fallback_counterexample :
    (getNextProxyAgent
        { proxyList := ["pa", "pb"], currentIndex := 1,
          health := fun _ => some { healthy := false, lastFailure := some 999999 } }
        1000000).map Prod.fst = some "pa" ∧
    (["pa", "pb"].getD 1 "") = "pb" ∧
    isProxyAvailable (fun _ => some { healthy := false, lastFailure := some 999999 })
      1000000 "pa" = false ∧
    isProxyAvailable (fun _ => some { healthy := false, lastFailure := some 999999 })
      1000000 "pb" = false ∧
    ("pa" : String) ≠ "pb" :=
  ⟨rfl, by decide, by decide, by decide, by decide⟩

/-- C3 (amended): for a non-empty proxy list with the cursor in range, when
no proxy is available `getNextProxyAgent` scans at most `len(list)` entries
starting at the cursor, advancing it each step, and then returns the first
entry of the list (index 0). -/
theorem getNext_fallback_first (s : ProxyPoolState) (now : Int)
    (hidx : s.currentIndex < s.proxyList.length)
    (hall : ∀ p ∈ s.proxyList, isProxyAvailable s.health now p = false) :
    (getNextProxyAgent s now).map Prod.fst = some (s.proxyList.getD 0 "") := by
  have hne : ¬ (s.proxyList.isEmpty = true) := by
    intro h
    rw [List.isEmpty_iff] at h
    rw [h] at hidx
    simp at hidx
  have hloop := getNextLoop_fst_none_of_all s.proxyList s.health now
    s.proxyList.length s.currentIndex hidx hall
  unfold getNextProxyAgent
  rw [if_neg hne]
  rcases hl : getNextLoop s.proxyList s.health now s.currentIndex s.proxyList.length
    with ⟨fst, snd⟩
  rw [hl] at hloop
  simp only at hloop
  subst hloop
  rfl

/-- Closed instance of the amended C3 theorem: both proxies in cooldown,
cursor at 0; the fallback returns the first list entry. -/
theorem getNext_fallback_first_witness :
    (getNextProxyAgent
        { proxyList := ["qa", "qb"], currentIndex := 0,
          health := fun _ => some { healthy := false, lastFailure := some 5 } }
        10).map Prod.fst = some "qa" :=
  getNext_fallback_first
    { proxyList := ["qa", "qb"], currentIndex := 0,
      health := fun _ => some { healthy := false, lastFailure := some 5 } }
    10 (by decide) (by decide)

/-- C4: if `getNextProxyAgent` hands out a proxy that is unavailable (failed
within the 5-minute cooldown window), then every proxy in the list is
unavailable — the fallback case.  Equivalently, a proxy in cooldown is never
returned while some proxy is available; availability is exactly
`isProxyAvailable`: never recorded, or healthy, or cooldown elapsed. -/
theorem getNext_respects_cooldown (s : ProxyPoolState) (now : Int)
    (hidx : s.currentIndex < s.proxyList.length) (p : String) (s' : ProxyPoolState)
    (hret : getNextProxyAgent s now = some (p, s'))
    (hp : isProxyAvailable s.health now p = false) :
    ∀ q ∈ s.proxyList, isProxyAvailable s.health now q = false := by
  have hne : ¬ (s.proxyList.isEmpty = true) := by
    intro h
    rw [List.isEmpty_iff] at h
    rw [h] at hidx
    simp at hidx
  unfold getNextProxyAgent at hret
  rw [if_neg hne] at hret
  rcases hl : getNextLoop s.proxyList s.health now s.currentIndex s.proxyList.length
    with ⟨fst, snd⟩
  rw [hl] at hret
  cases fst with
  | some proxy =>
    have hav := getNextLoop_fst_some s.proxyList s.health now s.proxyList.length
      s.currentIndex proxy (by rw [hl])
    simp only [Option.some.injEq, Prod.mk.injEq] at hret
    rw [hret.1] at hav
    rw [hav] at hp
    exact absurd hp (by simp)
  | none =>
    intro q hq
    obtain ⟨k, hk, hkq⟩ := List.mem_iff_getElem.mp hq
    have hlen : 0 < s.proxyList.length := by omega
    have hcov := getNextLoop_fst_none_cover s.proxyList s.health now
      s.proxyList.length s.currentIndex hidx (by rw [hl])
    have hj : (s.proxyList.length + k - s.currentIndex) % s.proxyList.length
        < s.proxyList.length := Nat.mod_lt _ hlen
    have h2 := hcov _ hj
    have e : (s.currentIndex
          + (s.proxyList.length + k - s.currentIndex) % s.proxyList.length)
          % s.proxyList.length = k := by
      rw [Nat.add_comm s.currentIndex, Nat.mod_add_mod]
      have e2 : s.proxyList.length + k - s.currentIndex + s.currentIndex
          = s.proxyList.length + k := by omega
      rw [e2, Nat.add_comm s.proxyList.length k, Nat.add_mod_right]
      exact Nat.mod_eq_of_lt hk
    rw [e] at h2
    rw [List.getD_eq_getElem s.proxyList "" hk, hkq] at h2
    exact h2

/-- Closed instance of the C4 theorem: both proxies failed recently, the
fallback proxy "ra" is returned while unavailable, and indeed the other
proxy "rb" is unavailable too. -/
theorem getNext_respects_cooldown_witness :
    isProxyAvailable (fun _ => some { healthy := false, lastFailure := some 100 })
      200 "rb" = false :=
  getNext_respects_cooldown
    { proxyList := ["ra", "rb"], currentIndex := 0,
      health := fun _ => some { healthy := false, lastFailure := some 100 } }
    200 (by decide) "ra"
    { proxyList := ["ra", "rb"], currentIndex := 0,
      health := fun _ => some { healthy := false, lastFailure := some 100 } }
    rfl (by decide) "rb" (by decide)

/-- A scoring step leaves every other comment's row untouched. -/
theorem scoreStep_ne (oracle : ScoringOracle) (now : Int) (db : CommentDb) (cid k : Nat)
    (h : k ≠ cid) : scoreStep oracle now db cid k = db k := by
  unfold scoreStep
  cases oracle cid with
  | error e => rfl
  | ok o =>
    cases o with
    | none => rfl
    | some out => simp [h]

/-- Processing a batch never touches the row of a comment not in the batch. -/
theorem calcRun_not_mem (oracle : ScoringOracle) (now : Int) (ids : List Nat) :
    ∀ (db : CommentDb) (cid : Nat), cid ∉ ids →
      calcSentimentRun oracle now db ids cid = db cid := by
  induction ids with
  | nil => intro db cid _; rfl
  | cons a l ih =>
    intro db cid h
    rw [List.mem_cons, not_or] at h
    have hstep : calcSentimentRun oracle now db (a :: l)
        = calcSentimentRun oracle now (scoreStep oracle now db a) l := rfl
    rw [hstep, ih _ _ h.2, scoreStep_ne _ _ _ _ _ h.1]

/-- C1 counterexample: when the scoring call returns sentiment 2 (outside
[-1, 1]) as a well-formed object, the value persisted to the comment row is
exactly 2 — the code applies no clamp at persistence. -/
theorem stored_sentiment_outside_range :
    (calcSentimentRun (fun _ => .ok (some { sentiment := some 2, flagForDelete := some false }))
        1000
        (fun _ => { redditId := "c", redditPostId := 0, body := "some body!",
                    upvotes := 0, createdAtUtc := 0, scrapedAt := 0,
                    sentiment := none, flagForDelete := false, sentToAIAt := none })
        [7] 7).sentiment = some 2 ∧
    ¬ ((-1 : ℚ) ≤ 2 ∧ (2 : ℚ) ≤ 1) :=
  ⟨rfl, by norm_num⟩

/-- C1 (amended): the sentiment persisted for a comment whose scoring call
completes with a (truthy) object is exactly the value the call returned; no
clamping happens in the persistence code, so the stored value lies in
[-1, 1] precisely when the returned value does. -/
theorem stored_sentiment_eq_returned (oracle : ScoringOracle) (now : Int) (db : CommentDb)
    (cid : Nat) (out : AnalyzedOutput) (h : oracle cid = .ok (some out)) :
    (scoreStep oracle now db cid cid).sentiment = out.sentiment ∧
    (∀ v : ℚ, out.sentiment = some v → -1 ≤ v → v ≤ 1 →
        (scoreStep oracle now db cid cid).sentiment = some v) := by
  constructor
  · simp [scoreStep, h]
  · intro v hv _ _
    simp [scoreStep, h, hv]

/-- Closed instance of the amended C1 theorem: a returned sentiment of 1/2 is
stored verbatim. -/
theorem stored_sentiment_eq_returned_witness :
    (scoreStep (fun _ => .ok (some { sentiment := some (1 / 2), flagForDelete := some false }))
        1000
        (fun _ => { redditId := "c", redditPostId := 0, body := "some body!",
                    upvotes := 0, createdAtUtc := 0, scrapedAt := 0,
                    sentiment := none, flagForDelete := false, sentToAIAt := none })
        7 7).sentiment = some (1 / 2) :=
  (stored_sentiment_eq_returned
      (fun _ => .ok (some { sentiment := some (1 / 2), flagForDelete := some false }))
      1000
      (fun _ => { redditId := "c", redditPostId := 0, body := "some body!",
                  upvotes := 0, createdAtUtc := 0, scrapedAt := 0,
                  sentiment := none, flagForDelete := false, sentToAIAt := none })
      7 { sentiment := some (1 / 2), flagForDelete := some false } rfl).1

/-- C8 counterexample: a scoring call that completes but returns an object
with no sentiment and no flag field (malformed under the two-field output
contract) does NOT leave the comment unscored: the code persists default
values and sets the scored-at timestamp. -/
theorem malformed_output_marks_scored :
    ((calcSentimentRun (fun _ => .ok (some { sentiment := none, flagForDelete := none }))
        1000
        (fun _ => { redditId := "c", redditPostId := 0, body := "some body!",
                    upvotes := 0, createdAtUtc := 0, scrapedAt := 0,
                    sentiment := none, flagForDelete := false, sentToAIAt := none })
        [3]) 3).sentToAIAt = some 1000 ∧
    ({ redditId := "c", redditPostId := 0, body := "some body!",
       upvotes := 0, createdAtUtc := 0, scrapedAt := 0,
       sentiment := none, flagForDelete := false,
       sentToAIAt := none : CommentRow }).sentToAIAt = none :=
  ⟨rfl, rfl⟩

/-- C8 (amended): for a batch containing `cid` once, if the scoring call for
`cid` throws, or parses to a falsy value, its row is left entirely unchanged
(no write of sentiment, flag or scored-at) while the rest of the batch is
still processed; if the call returns a truthy object the row is written with
exactly that result; and the batch is processed by sequential single-comment
writes (immediate persistence), so a mid-batch failure affects only its own
comment. -/
theorem calcSentiment_per_comment (oracle : ScoringOracle) (now : Int) (db : CommentDb)
    (l1 l2 : List Nat) (cid : Nat) (h1 : cid ∉ l1) (h2 : cid ∉ l2) :
    (∀ e, oracle cid = .error e →
        calcSentimentRun oracle now db (l1 ++ cid :: l2) cid = db cid) ∧
    (oracle cid = .ok none →
        calcSentimentRun oracle now db (l1 ++ cid :: l2) cid = db cid) ∧
    (∀ out, oracle cid = .ok (some out) →
        calcSentimentRun oracle now db (l1 ++ cid :: l2) cid =
          { db cid with sentiment := out.sentiment,
                        flagForDelete := out.flagForDelete.getD false,
                        sentToAIAt := some now }) ∧
    (∀ (xs ys : List Nat) (d : CommentDb),
        calcSentimentRun oracle now d (xs ++ ys) =
          calcSentimentRun oracle now (calcSentimentRun oracle now d xs) ys) := by
  have hsplit : ∀ d : CommentDb, calcSentimentRun oracle now d (l1 ++ cid :: l2)
      = calcSentimentRun oracle now
          (scoreStep oracle now (calcSentimentRun oracle now d l1) cid) l2 := by
    intro d
    unfold calcSentimentRun
    rw [List.foldl_append]
    rfl
  refine ⟨fun e he => ?_, fun he => ?_, fun out hout => ?_, fun xs ys d => ?_⟩
  · rw [hsplit db, calcRun_not_mem oracle now l2 _ cid h2]
    simp only [scoreStep, he]
    exact calcRun_not_mem oracle now l1 db cid h1
  · rw [hsplit db, calcRun_not_mem oracle now l2 _ cid h2]
    simp only [scoreStep, he]
    exact calcRun_not_mem oracle now l1 db cid h1
  · rw [hsplit db, calcRun_not_mem oracle now l2 _ cid h2]
    simp only [scoreStep, hout]
    rw [calcRun_not_mem oracle now l1 db cid h1]
    simp
  · unfold calcSentimentRun
    exact List.foldl_append _ _ _ _

/-- Concrete oracle for the C8 witness: the call for comment 1 throws, the
call for comment 2 completes with sentiment 1/2. -/
def sampleOracle : ScoringOracle :=
  fun n => if n = 1 then .error "boom"
           else .ok (some { sentiment := some (1 / 2), flagForDelete := some false })

/-- Concrete database for the C8 witness: all rows unscored. -/
def sampleDb : CommentDb :=
  fun _ => { redditId := "c", redditPostId := 0, body := "some body!",
             upvotes := 0, createdAtUtc := 0, scrapedAt := 0,
             sentiment := none, flagForDelete := false, sentToAIAt := none }

/-- Closed instance of the amended C8 theorem: in the batch [1, 2] the call
for comment 1 throws; comment 2 is still scored and written, and comment 1's
row is unchanged. -/
theorem calcSentiment_per_comment_witness :
    calcSentimentRun sampleOracle 1000 sampleDb [1, 2] 2 =
      { sampleDb 2 with sentiment := some (1 / 2), flagForDelete := false,
                        sentToAIAt := some 1000 } ∧
    calcSentimentRun sampleOracle 1000 sampleDb [1, 2] 1 = sampleDb 1 :=
  ⟨(calcSentiment_per_comment sampleOracle 1000 sampleDb [1] [] 2 (by decide) (by decide)).2.2.1
      { sentiment := some (1 / 2), flagForDelete := some false } rfl,
   (calcSentiment_per_comment sampleOracle 1000 sampleDb [] [2] 1 (by decide) (by decide)).1
      "boom" rfl⟩

/-- The DFS preorder id list has one entry per node of the forest. -/
theorem preorderIds_length (children : List RedditNode) :
    (preorderIds children).length = forestSize children := by
  induction children using preorderIds.induct with
  | case1 => simp [preorderIds, forestSize]
  | case2 kind name author body score cu replies rest ih1 ih2 =>
    simp [preorderIds, forestSize, ih1, ih2]
    omega

/-- On a forest of comment nodes only, the extractor's output lists, in
order, exactly the DFS preorder ids, nesting levels and immediate parents of
the forest. -/
theorem extract_maps (children : List RedditNode) (postId : String)
    (parentId : Option String) (depth : Nat) :
    allT1 children = true →
    (extractAllComments children postId parentId depth).map (fun r => r.comment_id)
        = preorderIds children ∧
    (extractAllComments children postId parentId depth).map (fun r => r.depth)
        = preorderDepths children depth ∧
    (extractAllComments children postId parentId depth).map (fun r => r.parent_id)
        = preorderParents children (parentId.getD postId) := by
  induction children, postId, parentId, depth using extractAllComments.induct with
  | case1 postId parentId depth =>
    intro _
    simp [extractAllComments, preorderIds, preorderDepths, preorderParents]
  | case2 name author body score cu replies rest postId parentId depth ih1 ih2 =>
    intro h
    simp only [allT1, Bool.and_eq_true, beq_iff_eq] at h
    obtain ⟨⟨-, hrep⟩, hrest⟩ := h
    obtain ⟨i1, i2, i3⟩ := ih1 hrep
    obtain ⟨j1, j2, j3⟩ := ih2 hrest
    simp only [Option.getD_some] at i3
    simp [extractAllComments, preorderIds, preorderDepths, preorderParents,
      i1, i2, i3, j1, j2, j3]
  | case3 kind name author body score cu replies rest postId parentId depth ht ih =>
    intro h
    simp only [allT1, Bool.and_eq_true, beq_iff_eq] at h
    exact absurd h.1.1 ht

/-- Every extracted record either sits at the call's base depth with the
call's base parent, or at a strictly deeper level with some earlier-emitted
record as its immediate parent (one level up). -/
theorem extract_parent_links (children : List RedditNode) (postId : String)
    (parentId : Option String) (depth : Nat) :
    ∀ r ∈ extractAllComments children postId parentId depth,
      (r.depth = depth ∧ r.parent_id = parentId.getD postId) ∨
      (depth < r.depth ∧ ∃ q ∈ extractAllComments children postId parentId depth,
          q.comment_id = r.parent_id ∧ q.depth + 1 = r.depth) := by
  induction children, postId, parentId, depth using extractAllComments.induct with
  | case1 postId parentId depth =>
    intro r hr
    simp [extractAllComments] at hr
  | case2 name author body score cu replies rest postId parentId depth ih1 ih2 =>
    intro r hr
    simp only [extractAllComments, if_pos, List.mem_cons, List.mem_append,
      reduceIte] at hr
    rcases hr with rfl | hia | hib
    · left
      exact ⟨rfl, rfl⟩
    · rcases ih1 r hia with ⟨hd, hp⟩ | ⟨hd, q, hqA, hq1, hq2⟩
      · right
        refine ⟨by omega,
          { comment_id := name, post_id := postId, parent_id := parentId.getD postId,
            author := author, body := body, score := score, created_utc := cu,
            depth := depth }, ?_, ?_, ?_⟩
        · simp [extractAllComments]
        · simp [hp]
        · simp [hd]
      · right
        refine ⟨by omega, q, ?_, hq1, hq2⟩
        simp only [extractAllComments, List.mem_cons, List.mem_append, reduceIte]
        exact Or.inr (Or.inl hqA)
    · rcases ih2 r hib with hleft | ⟨hd, q, hqB, hq1, hq2⟩
      · left
        exact hleft
      · right
        refine ⟨hd, q, ?_, hq1, hq2⟩
        simp only [extractAllComments, List.mem_cons, List.mem_append, reduceIte]
        exact Or.inr (Or.inr hqB)
  | case3 kind name author body score cu replies rest postId parentId depth ht ih =>
    intro r hr
    simp only [extractAllComments, if_neg ht] at hr
    rcases ih r hr with hleft | ⟨hd, q, hq, hq1, hq2⟩
    · left
      exact hleft
    · right
      refine ⟨hd, q, ?_, hq1, hq2⟩
      simp only [extractAllComments, if_neg ht]
      exact hq

/-- C6: on a reply forest consisting of N comment nodes, the extractor
produces exactly N flattened records in depth-first source order; each
record's depth is its nesting level (0 for top-level replies), each record's
parent id is the immediate parent comment's id (the post id at depth 0), and
every parent chain steps down one level at a time until it reaches the post
id at depth 0 — so all parent chains terminate at the post id. -/
theorem extract_flattening (forest : List RedditNode) (postId : String)
    (hall : allT1 forest = true) :
    (extractComments forest postId).length = forestSize forest ∧
    (extractComments forest postId).map (fun r => r.comment_id) = preorderIds forest ∧
    (extractComments forest postId).map (fun r => r.depth) = preorderDepths forest 0 ∧
    (extractComments forest postId).map (fun r => r.parent_id)
        = preorderParents forest postId ∧
    (∀ r ∈ extractComments forest postId,
        (r.depth = 0 ∧ r.parent_id = postId) ∨
        (0 < r.depth ∧ ∃ q ∈ extractComments forest postId,
            q.comment_id = r.parent_id ∧ q.depth + 1 = r.depth)) := by
  obtain ⟨m1, m2, m3⟩ := extract_maps forest postId none 0 hall
  refine ⟨?_, m1, m2, m3, ?_⟩
  · have hlen := congrArg List.length m1
    rw [List.length_map] at hlen
    show (extractAllComments forest postId none 0).length = forestSize forest
    rw [hlen, preorderIds_length]
  · intro r hr
    exact extract_parent_links forest postId none 0 r hr

/-- Closed instance of the C6 theorem on a three-node forest (a top-level
comment with one nested reply, then a second top-level comment). -/
theorem extract_flattening_witness :
    (extractComments
        [.mk "t1" "t1_a" "u" "aaa" 1 none [.mk "t1" "t1_b" "v" "bbb" 2 none []],
         .mk "t1" "t1_c" "w" "ccc" 3 none []] "t3_p").length
      = forestSize
          [.mk "t1" "t1_a" "u" "aaa" 1 none [.mk "t1" "t1_b" "v" "bbb" 2 none []],
           .mk "t1" "t1_c" "w" "ccc" 3 none []] ∧
    (extractComments
        [.mk "t1" "t1_a" "u" "aaa" 1 none [.mk "t1" "t1_b" "v" "bbb" 2 none []],
         .mk "t1" "t1_c" "w" "ccc" 3 none []] "t3_p").map (fun r => r.comment_id)
      = preorderIds
          [.mk "t1" "t1_a" "u" "aaa" 1 none [.mk "t1" "t1_b" "v" "bbb" 2 none []],
           .mk "t1" "t1_c" "w" "ccc" 3 none []] ∧
    (extractComments
        [.mk "t1" "t1_a" "u" "aaa" 1 none [.mk "t1" "t1_b" "v" "bbb" 2 none []],
         .mk "t1" "t1_c" "w" "ccc" 3 none []] "t3_p").map (fun r => r.depth)
      = preorderDepths
          [.mk "t1" "t1_a" "u" "aaa" 1 none [.mk "t1" "t1_b" "v" "bbb" 2 none []],
           .mk "t1" "t1_c" "w" "ccc" 3 none []] 0 ∧
    (extractComments
        [.mk "t1" "t1_a" "u" "aaa" 1 none [.mk "t1" "t1_b" "v" "bbb" 2 none []],
         .mk "t1" "t1_c" "w" "ccc" 3 none []] "t3_p").map (fun r => r.parent_id)
      = preorderParents
          [.mk "t1" "t1_a" "u" "aaa" 1 none [.mk "t1" "t1_b" "v" "bbb" 2 none []],
           .mk "t1" "t1_c" "w" "ccc" 3 none []] "t3_p" := by
  have h := extract_flattening
    [.mk "t1" "t1_a" "u" "aaa" 1 none [.mk "t1" "t1_b" "v" "bbb" 2 none []],
     .mk "t1" "t1_c" "w" "ccc" 3 none []] "t3_p" (by simp [allT1])
  exact ⟨h.1, h.2.1, h.2.2.1, h.2.2.2.1⟩
